import Mathlib

set_option maxRecDepth 8000

/-!
Shallow embedding of the k8s-ai-diagnostics decision-and-learning engine:
the Planner (src/agentic-ai/planner.py), the Pattern Memory
(src/agentic-ai/memory.py), the Executor and Learn phase
(src/agentic-ai/agentic_monitor.py) and the standalone remediation flow
(src/remediation.py).  Python dictionaries and the JSON values exchanged
with the reasoning service are modelled by the `Json` type below; external
collaborators (the kubectl control-plane client, the OpenAI call, the file
system) are modelled as explicit parameters recording their outcomes.
-/

/-- Json models Python dict/list/str/int/bool/None values as they appear in
plan steps, memory files and reasoning-service replies.  Python floats are
not used by any code path modelled here and are omitted. -/
inductive Json where
  | null : Json
  | b : Bool → Json
  | i : Int → Json
  | s : String → Json
  | arr : List Json → Json
  | obj : List (String × Json) → Json

/-- Dictionary lookup `d.get(k)`: `none` when the key is absent or the value
is not a dict. -/
def jGet (j : Json) (k : String) : Option Json :=
  match j with
  | .obj kvs => kvs.lookup k
  | _ => none

/-- Dictionary lookup with default, `d.get(k, default)` on a dict. -/
def jGetD (j : Json) (k : String) (d : Json) : Json := (jGet j k).getD d

/-- Test for a JSON object (a Python dict). -/
def isObjJson : Json → Bool
  | .obj _ => true
  | _ => false

/-- Python truthiness of a JSON value (`if x:`). -/
def jTruthy : Json → Bool
  | .null => false
  | .b v => v
  | .i v => v != 0
  | .s v => !(v == "")
  | .arr xs => !xs.isEmpty
  | .obj kvs => !kvs.isEmpty

/-- Python whitespace class for ASCII text, as matched by the regex class
used in planner.py (`\s`) and by `str.strip()`. -/
def isWs (c : Char) : Bool :=
  c == ' ' || c == '\t' || c == '\n' || c == '\r' || c == '\x0b' || c == '\x0c'

/-- First list is a leading segment of the second. -/
def listStarts : List Char → List Char → Bool
  | [], _ => true
  | _ :: _, [] => false
  | a :: as, b :: bs => a == b && listStarts as bs

/-- Needle occurs somewhere inside the haystack. -/
def listHasSub (needle : List Char) : List Char → Bool
  | [] => needle.isEmpty
  | c :: rest => listStarts needle (c :: rest) || listHasSub needle rest

/-- Python substring test `needle in hay`. -/
def strHas (hay needle : String) : Bool := listHasSub needle.toList hay.toList

/-- Python `str.strip()` restricted to the ASCII whitespace class. -/
def pyStrip (str : String) : String :=
  String.mk (((str.toList.dropWhile isWs).reverse.dropWhile isWs).reverse)

/-- Python `str.lower()` on ASCII text. -/
def pyToLower (str : String) : String := String.mk (str.toList.map Char.toLower)

/-- Python `sep.join(parts)`. -/
def joinWith (sep : String) : List String → String
  | [] => ""
  | [x] => x
  | x :: rest => x ++ sep ++ joinWith sep rest

/-- Splitting worker: walk the text, cutting a chunk at every occurrence of
the (non-empty) separator; the fuel argument only bounds the recursion and
equals the text length at the top-level call, which one step per consumed
character never exhausts. -/
def splitOnFuel (sep : List Char) : Nat → List Char → List Char →
    List (List Char)
  | 0, acc, l => [acc.reverse ++ l]
  | _ + 1, acc, [] => [acc.reverse]
  | fuel + 1, acc, c :: rest =>
    if listStarts sep (c :: rest) then
      acc.reverse :: splitOnFuel sep fuel [] ((c :: rest).drop sep.length)
    else splitOnFuel sep fuel (c :: acc) rest

/-- Python `str.split(sep)` for a non-empty separator. -/
def pySplit (str sep : String) : List String :=
  if sep.isEmpty then [str]
  else (splitOnFuel sep.toList str.toList.length [] str.toList).map String.mk

/-- Replacement worker with the same fuel discipline as splitOnFuel. -/
def replaceFuel (sub rep : List Char) : Nat → List Char → List Char
  | 0, l => l
  | _ + 1, [] => []
  | fuel + 1, c :: rest =>
    if listStarts sub (c :: rest) then
      rep ++ replaceFuel sub rep fuel ((c :: rest).drop sub.length)
    else c :: replaceFuel sub rep fuel rest

/-- Python `str.replace(sub, rep)`: replace every non-overlapping
occurrence left to right.  Every pattern replaced by the code (the typo
table) is non-empty; for an empty pattern this returns the text unchanged. -/
def pyReplace (str sub rep : String) : String :=
  if sub.isEmpty then str
  else String.mk (replaceFuel sub.toList rep.toList str.toList.length str.toList)

/-- Derivation `issue.pod_name.rsplit('-', 2)[0]` used throughout
planner.py and agentic_monitor.py to turn a pod name into its deployment
name: drop the last two dash-separated components when they exist. -/
def deploymentOf (pod : String) : String :=
  let ps := pySplit pod "-"
  joinWith "-" (ps.take (ps.length - min 2 (ps.length - 1)))

/-- Issue dataclass from memory.py (field `namespace` is spelled `nspace`
because `namespace` is a Lean keyword; the JSON key keeps the original
spelling). -/
structure Issue where
  pod_name : String
  nspace : String
  status : String
  reason : String
  message : String
  timestamp : String
  container_name : Option String := none
  deriving DecidableEq

/-- Diagnostic context dict built by AgenticMonitor.gather_context; a key
missing from the dict behaves as the empty string under the `.get(k, "")`
accesses in planner.py. -/
structure Context where
  logs : String := ""
  pod_description : String := ""
  events : String := ""
  deriving DecidableEq

/-- IMAGE_TYPO_MAP from planner.py, in Python dict insertion order. -/
def IMAGE_TYPO_MAP : List (String × String) :=
  [("apline", "alpine"), ("latst", "latest"), ("lastest", "latest"),
   ("ubunut", "ubuntu"), ("ngnix", "nginx"), ("postgress", "postgres"),
   ("rediss", "redis")]

/-- Result of Planner._detect_image_typo: the original image reference and
its corrected spelling. -/
structure ImageFix where
  original : String
  corrected : String
  deriving DecidableEq

/-- Backtracking step of the regex `Image:\s+(.+?)(?:\n|$)` after the
literal `Image:`: try consuming n whitespace characters greedily, then
capture the (non-empty) remainder of the line; shrink n on failure. -/
def backtrackCap (cs : List Char) : Nat → Option (List Char)
  | 0 => none
  | k + 1 =>
    match cs.drop (k + 1) with
    | [] => backtrackCap cs k
    | c :: rest =>
      if c == '\n' then backtrackCap cs k
      else some ((c :: rest).takeWhile (· != '\n'))

/-- Attempt the regex `Image:\s+(.+?)(?:\n|$)` with `cs` being the text
right after a literal `Image:` occurrence. -/
def matchImageAt (cs : List Char) : Option (List Char) :=
  backtrackCap cs (cs.takeWhile isWs).length

/-- Scan for the first position where `re.search(r'Image:\s+(.+?)(?:\n|$)')`
matches, returning the captured group. -/
def findImage : List Char → Option (List Char)
  | [] => none
  | c :: rest =>
    if listStarts "Image:".toList (c :: rest) then
      match matchImageAt ((c :: rest).drop 6) with
      | some cap => some cap
      | none => findImage rest
    else findImage rest

/-- Loop over IMAGE_TYPO_MAP in planner.py lines 124-130: first typo that
occurs in the lowercased image name wins; the corrected name is the
lowercased original with every occurrence of the typo replaced. -/
def imageTypoFix (original : String) : Option ImageFix :=
  (IMAGE_TYPO_MAP.find? (fun tc => strHas (pyToLower original) tc.1)).map
    (fun tc => ⟨original, pyReplace (pyToLower original) tc.1 tc.2⟩)

/-- Planner._detect_image_typo (planner.py lines 114-132). -/
def detect_image_typo (ctx : Context) : Option ImageFix :=
  match findImage ctx.pod_description.toList with
  | none => none
  | some cap => imageTypoFix (pyStrip (String.mk cap))

/-- ASCII uppercase letter, the regex class `[A-Z]`. -/
def isUpperAZ (c : Char) : Bool := 'A' ≤ c && c ≤ 'Z'

/-- Character of the regex class `[A-Z_]`. -/
def isUpOrUnd (c : Char) : Bool := isUpperAZ c || c == '_'

/-- Within one line of the logs, the leftmost match of the MULTILINE regex
`([A-Z][A-Z_]+) is:\s*$` from Planner._detect_missing_env_vars: a maximal
uppercase/underscore run of length at least two, followed by the literal
` is:` and then only whitespace up to the end of the line. -/
def lineEnvVar : List Char → Option String
  | [] => none
  | c :: rest =>
    if isUpperAZ c then
      let run := (c :: rest).takeWhile isUpOrUnd
      let after := (c :: rest).drop run.length
      if run.length ≥ 2 && listStarts " is:".toList after && (after.drop 4).all isWs
      then some (String.mk run)
      else lineEnvVar rest
    else lineEnvVar rest

/-- Default value assigned to a detected missing environment variable
(planner.py lines 146-153). -/
def envValueFor (name : String) : String :=
  if strHas name "PASSWORD" then "password123"
  else if strHas name "HOST" then "localhost"
  else if strHas name "PORT" then "3306"
  else "default"

/-- Python dict assignment `env_vars[k] = v`: overwrite in place when the
key exists, otherwise append. -/
def updateEnvMap (m : List (String × String)) (k v : String) :
    List (String × String) :=
  if m.any (fun kv => kv.1 == k) then
    m.map (fun kv => if kv.1 == k then (k, v) else kv)
  else m ++ [(k, v)]

/-- Planner._detect_missing_env_vars (planner.py lines 134-155). -/
def detect_missing_env_vars (ctx : Context) : Option (List (String × String)) :=
  let names := (pySplit ctx.logs "\n").filterMap (fun l => lineEnvVar l.toList)
  let env := names.foldl (fun m name =>
    if name == "ERROR" || name == "WARNING" || name == "INFO" || name == "DEBUG"
    then m
    else updateEnvMap m name (envValueFor name)) []
  if env.isEmpty then none else some env

/-- Entry of a pattern's `successful_actions` list (memory.py lines 92-96). -/
structure ActionEntry where
  action : String
  details : Json
  reasoning : String

/-- Pattern aggregate stored under a signature key (memory.py lines 82-86).
Counters are naturals: they start at zero and are only incremented. -/
structure Pattern where
  successful_actions : List ActionEntry
  success_count : Nat
  total_count : Nat

/-- RemediationAttempt dataclass from memory.py, in the dict form built by
store_attempt. -/
structure AttemptRec where
  issue : Issue
  action : String
  action_details : Json
  success : Bool
  timestamp : String
  reasoning : String

/-- The in-memory dict `self.memory = {"attempts": [...], "patterns": {...}}`
of memory.py, in structured form; patterns is an insertion-ordered dict. -/
structure MemoryState where
  attempts : List AttemptRec
  patterns : List (String × Pattern)

/-- Fresh memory `{"attempts": [], "patterns": {}}`. -/
def emptyMemory : MemoryState := ⟨[], []⟩

/-- Signature key `f"{status}_{reason}"` used by memory.py. -/
def patternKey (status reason : String) : String := status ++ "_" ++ reason

/-- Effect of Memory._update_patterns on the patterns dict: create the
entry `{"successful_actions": [], "success_count": 0, "total_count": 0}`
when the key is absent, then increment both counters and append the
action entry (memory.py lines 81-97). -/
def bumpPattern (key : String) (entry : ActionEntry) :
    List (String × Pattern) → List (String × Pattern)
  | [] => [(key, ⟨[entry], 1, 1⟩)]
  | (k, p) :: rest =>
    if k == key then
      (k, ⟨p.successful_actions ++ [entry], p.success_count + 1,
           p.total_count + 1⟩) :: rest
    else (k, p) :: bumpPattern key entry rest

/-- Memory._update_patterns (memory.py lines 76-97); only called (and only
acts) on successful attempts. -/
def update_patterns (m : MemoryState) (a : AttemptRec) : MemoryState :=
  if a.success then
    { m with patterns :=
        (bumpPattern (patternKey a.issue.status a.issue.reason)
          (ActionEntry.mk a.action a.action_details a.reasoning) m.patterns) }
  else m

/-- Memory.store_attempt (memory.py lines 59-74): append the attempt dict
to the log, update patterns on success.  Persistence is modelled separately
by encodeMemory/decodeMemory. -/
def store_attempt (m : MemoryState) (a : AttemptRec) : MemoryState :=
  let m1 : MemoryState := { m with attempts := m.attempts ++ [a] }
  if a.success then update_patterns m1 a else m1

/-- Memory.recall_similar (memory.py lines 99-109): the most recent
successful action for the issue's signature when its success count is
positive. -/
def recall_similar (m : MemoryState) (issue : Issue) : Option ActionEntry :=
  match m.patterns.lookup (patternKey issue.status issue.reason) with
  | some p => if p.success_count > 0 then p.successful_actions.getLast? else none
  | none => none

/-- Memory.get_success_rate (memory.py lines 111-117); returns 0.0 when the
pattern is absent or its total count is zero. -/
def get_success_rate (m : MemoryState) (key : String) : Rat :=
  match m.patterns.lookup key with
  | some p =>
    if p.total_count > 0 then (p.success_count : Rat) / (p.total_count : Rat)
    else 0
  | none => 0

/-- Memory.get_history (memory.py lines 119-124). -/
def get_history (m : MemoryState) (pod : String) : List AttemptRec :=
  m.attempts.filter (fun a => a.issue.pod_name == pod)

/-- Return value of Memory.get_statistics (memory.py lines 126-136); the
rate is an exact rational. -/
structure Stats where
  total_attempts : Nat
  successful_attempts : Nat
  success_rate : Rat
  patterns_learned : Nat
  deriving DecidableEq

/-- Memory.get_statistics (memory.py lines 126-136). -/
def get_statistics (m : MemoryState) : Stats :=
  let total := m.attempts.length
  let succTotal := (m.attempts.filter (fun a => a.success)).length
  ⟨total, succTotal,
   if total > 0 then (succTotal : Rat) / (total : Rat) else 0,
   m.patterns.length⟩

/-- The four entries of `valid_actions` in planner.py. -/
def validActions : List String :=
  ["restart_pod", "update_env", "increase_memory", "fix_image_name"]

/-- Single high-confidence step returned by the image-typo heuristic
(planner.py lines 43-51). -/
def fix_image_step (issue : Issue) (tf : ImageFix) : Json :=
  .obj [("action", .s "fix_image_name"),
        ("details", .obj [("deployment_name", .s (deploymentOf issue.pod_name)),
                          ("new_image", .s tf.corrected)]),
        ("reasoning", .s ("Detected typo in image name: \x27" ++ tf.original ++
                          "\x27 should be \x27" ++ tf.corrected ++ "\x27")),
        ("confidence", .s "high")]

/-- Single high-confidence step returned by the missing-env heuristic
(planner.py lines 60-68). -/
def update_env_step (issue : Issue) (env : List (String × String)) : Json :=
  .obj [("action", .s "update_env"),
        ("details", .obj [("deployment_name", .s (deploymentOf issue.pod_name)),
                          ("env_vars", .obj (env.map (fun kv => (kv.1, Json.s kv.2))))]),
        ("reasoning", .s ("Pod logs indicate missing environment variables: " ++
                          joinWith ", " (env.map (fun kv => kv.1)))),
        ("confidence", .s "high")]

/-- Single step replayed from a memory hit (planner.py lines 78-83). -/
def learned_step (sol : ActionEntry) : Json :=
  .obj [("action", .s sol.action), ("details", sol.details),
        ("reasoning", .s ("Using learned solution: " ++ sol.action)),
        ("confidence", .s "high")]

/-- Safe-default step returned when the reasoning-service call (or the
subsequent parse) raises (planner.py lines 107-112). -/
def error_fallback (issue : Issue) : Json :=
  .obj [("action", .s "restart_pod"),
        ("details", .obj [("pod_name", .s issue.pod_name),
                          ("namespace", .s issue.nspace)]),
        ("reasoning", .s "Fallback action due to planning error"),
        ("confidence", .s "low")]

/-- Safe-default step returned by _parse_plan when no JSON array parses or
no valid entry remains (planner.py lines 246-251). -/
def parse_fallback (issue : Issue) : Json :=
  .obj [("action", .s "restart_pod"),
        ("details", .obj [("pod_name", .s issue.pod_name),
                          ("namespace", .s issue.nspace)]),
        ("reasoning", .s "Could not parse AI plan, using fallback"),
        ("confidence", .s "low")]

/-- Filter predicate `step.get("action") in valid_actions` of _parse_plan,
for a dict entry. -/
def entryActionValid (e : Json) : Bool :=
  match jGet e "action" with
  | some (.s a) => validActions.contains a
  | _ => false

/-- Planner._parse_plan (planner.py lines 228-251), parameterised by the
outcome of the regex search `\[.*\]` plus `json.loads` on the reply text
(Python stdlib): `none` when no array substring was found or decoding
raised JSONDecodeError.  An entry that is not a dict makes the Python loop
raise AttributeError out of _parse_plan, modelled by `.error ()`. -/
def parse_plan (parsed : Option (List Json)) (issue : Issue) :
    Except Unit (List Json) :=
  match parsed with
  | some entries =>
    if entries.all isObjJson then
      let validated := entries.filter entryActionValid
      if validated.isEmpty then .ok [parse_fallback issue] else .ok validated
    else .error ()
  | none => .ok [parse_fallback issue]

/-- Tier 3 plus tier 4 of Planner.create_plan (planner.py lines 90-112):
the try block around the OpenAI call and _parse_plan, with the except
branch returning the safe default.  The parameter records the outcome of
the external call: `.error ()` when it raised, otherwise the parse-stage
result for the reply text. -/
def llm_tier (issue : Issue) (llm : Except Unit (Option (List Json))) :
    List Json :=
  match llm with
  | .error _ => [error_fallback issue]
  | .ok parsed =>
    match parse_plan parsed issue with
    | .ok steps => steps
    | .error _ => [error_fallback issue]

/-- Tier 1 of Planner.create_plan (planner.py lines 36-68): the
reason-specific heuristic detectors. -/
def heuristic_step (issue : Issue) (ctx : Context) : Option Json :=
  match (if issue.reason == "ImagePullBackOff" || issue.reason == "ErrImagePull"
         then detect_image_typo ctx else none) with
  | some tf => some (fix_image_step issue tf)
  | none =>
    match (if issue.reason == "CrashLoopBackOff"
           then detect_missing_env_vars ctx else none) with
    | some env => some (update_env_step issue env)
    | none => none

/-- Tier 2 of Planner.create_plan (planner.py lines 70-83): replay a
memory hit only when its action is still in the valid enumeration. -/
def memory_hit (m : MemoryState) (issue : Issue) : Option Json :=
  match recall_similar m issue with
  | some sol =>
    if validActions.contains sol.action then some (learned_step sol) else none
  | none => none

/-- Planner.create_plan (planner.py lines 33-112): heuristics, then memory
recall, then the reasoning-service tier with its safe default. -/
def create_plan (issue : Issue) (ctx : Context) (mem : MemoryState)
    (llm : Except Unit (Option (List Json))) : List Json :=
  match heuristic_step issue ctx with
  | some st => [st]
  | none =>
    match memory_hit mem issue with
    | some st => [st]
    | none => llm_tier issue llm

/-- Control-plane invocations the Executor can issue, with the arguments
AgenticMonitor.execute_plan passes to KubernetesTools (agentic_monitor.py
lines 394-432).  Detail values are carried verbatim as JSON. -/
inductive ToolCall where
  | restart_pod (pod ns : String)
  | update_env (deployment : Json) (ns : String) (env_vars : Json)
  | increase_memory (deployment : Json) (ns : String) (new_limit : Json)
  | fix_image_name (deployment : Json) (ns : String) (new_image : Json)

/-- One iteration of the loop in AgenticMonitor.execute_plan: the
control-plane call a step issues, if any.  `.error ()` models the uncaught
KeyError/TypeError/AttributeError raised when the step is not a dict, its
`action` is missing or not a string (`step['action'].upper()`), `details`
is missing, or `details` is not a dict where `.get` is called on it.
`.ok none` is a step that issues no call (unknown action, or
fix_image_name with a falsy `new_image`) and counts as failed. -/
def exec_step (issue : Issue) (ns : String) (step : Json) :
    Except Unit (Option ToolCall) :=
  match jGet step "action", jGet step "details" with
  | some (.s action), some details =>
    if action == "restart_pod" then
      .ok (some (.restart_pod issue.pod_name ns))
    else if action == "update_env" then
      match details with
      | .obj _ =>
        .ok (some (.update_env
          (jGetD details "deployment_name" (.s (deploymentOf issue.pod_name)))
          ns (jGetD details "env_vars" (.obj []))))
      | _ => .error ()
    else if action == "increase_memory" then
      match details with
      | .obj _ =>
        .ok (some (.increase_memory
          (jGetD details "deployment_name" (.s (deploymentOf issue.pod_name)))
          ns (jGetD details "new_limit" (.s "512Mi"))))
      | _ => .error ()
    else if action == "fix_image_name" then
      match details with
      | .obj _ =>
        let new_image := jGetD details "new_image" .null
        if jTruthy new_image then
          .ok (some (.fix_image_name
            (jGetD details "deployment_name" (.s (deploymentOf issue.pod_name)))
            ns new_image))
        else .ok none
      | _ => .error ()
    else .ok none
  | _, _ => .error ()

/-- AgenticMonitor.execute_plan (agentic_monitor.py lines 394-432),
parameterised by an oracle giving each control-plane call's success and
returning, next to the overall result, the trace of calls actually issued.
The KubernetesTools methods catch their own exceptions and return False,
so a failing call never aborts the loop; the only aborts are the
malformed-step errors of exec_step. -/
def execute_plan (tools : ToolCall → Bool) (issue : Issue) (ns : String) :
    List Json → Except Unit (Bool × List ToolCall)
  | [] => .ok (false, [])
  | step :: rest =>
    match exec_step issue ns step with
    | .error e => .error e
    | .ok none => execute_plan tools issue ns rest
    | .ok (some call) =>
      if tools call then .ok (true, [call])
      else
        match execute_plan tools issue ns rest with
        | .ok (br, tr) => .ok (br, call :: tr)
        | .error e => .error e

/-- Call a step issues, or none (also none when exec_step would raise). -/
def step_call (issue : Issue) (ns : String) (step : Json) : Option ToolCall :=
  match exec_step issue ns step with
  | .ok c => c
  | .error _ => none

/-- Whether a step's apply reports success under the oracle. -/
def step_ok (tools : ToolCall → Bool) (issue : Issue) (ns : String)
    (step : Json) : Bool :=
  match step_call issue ns step with
  | some c => tools c
  | none => false

/-- Well-formed Step of the spec's data model: a dict with a string action
kind and a details map, exactly what execute_plan reads unconditionally. -/
def stepWF (step : Json) : Bool :=
  (match jGet step "action" with | some (Json.s _) => true | _ => false) &&
  (match jGet step "details" with | some (Json.obj _) => true | _ => false)

/-- Parsed line of remediation.log (remediation.py parse_remediation_log). -/
structure LogEntry where
  timestamp : String
  command : String
  returncode : Int
  output : String
  error : String
  deriving DecidableEq

/-- was_remediation_successful (remediation.py lines 145-152): scan the
history from the most recent entry backwards; the first entry whose
command matches decides, succeeding iff its recorded returncode is 0. -/
def was_remediation_successful (command : String) (history : List LogEntry) :
    Bool :=
  match history.reverse.find? (fun e => e.command == command) with
  | some e => e.returncode == 0
  | none => false

/-- Exact `json.dumps` text of the merge patch built by
generate_patch_memory_cmd (remediation.py lines 52-66). -/
def patchPayload (pod newLimit : String) : String :=
  "\x7b\"spec\": \x7b\"containers\": [\x7b\"name\": \"" ++ pod ++
  "\", \"resources\": \x7b\"limits\": \x7b\"memory\": \"" ++ newLimit ++
  "\"\x7d\x7d\x7d]\x7d\x7d"

/-- generate_patch_memory_cmd (remediation.py lines 52-72). -/
def generate_patch_memory_cmd (pod ns newLimit : String) : List String :=
  ["kubectl", "patch", "pod", pod, "-n", ns, "--type=merge",
   "--patch=" ++ patchPayload pod newLimit]

/-- Restart command string built in remediate_pod's CrashLoopBackOff
branch (remediation.py line 187); identical to the joined form logged by
restart_pod. -/
def restart_cmd_str (pod ns : String) : String :=
  "kubectl delete pod " ++ pod ++ " -n " ++ ns

/-- remediate_pod (remediation.py lines 154-204), returning the list of
kubectl commands actually applied.  External effects are parameters:
`current_mem` is get_current_memory_limit's result, `recommended_mem` is
increase_memory's result (its float arithmetic stays outside the model),
`confirm` is the user's reply to ask_user_to_confirm.  The probe-failure
and unknown-diagnosis branches apply nothing. -/
def remediate_pod (pod ns diagnosis : String) (history : List LogEntry)
    (current_mem recommended_mem : Option String) (dry_run confirm : Bool) :
    List (List String) :=
  if strHas diagnosis "OOMKilled" then
    match current_mem with
    | none => []
    | some _ =>
      match recommended_mem with
      | none => []
      | some newLimit =>
        let patch_cmd := generate_patch_memory_cmd pod ns newLimit
        if was_remediation_successful (joinWith " " patch_cmd) history
        then []
        else if dry_run then (if confirm then [patch_cmd] else [])
        else [patch_cmd]
  else if strHas diagnosis "CrashLoopBackOff" then
    if was_remediation_successful (restart_cmd_str pod ns) history then []
    else if dry_run then [] else [["kubectl", "delete", "pod", pod, "-n", ns]]
  else []

/-- Empty persisted memory document `{"attempts": [], "patterns": {}}`. -/
def emptyMemoryJson : Json := .obj [("attempts", .arr []), ("patterns", .obj [])]

/-- Memory._load_memory (memory.py lines 43-52), parameterised by the file
system: `none` when the file does not exist, otherwise the outcome of
`json.load` on its text (`.error ()` for a JSONDecodeError, which is the
only exception caught).  Any successfully decoded JSON document is
returned verbatim, whatever its shape. -/
def load_memory (file : Option (Except Unit Json)) : Json :=
  match file with
  | none => emptyMemoryJson
  | some (.error _) => emptyMemoryJson
  | some (.ok j) => j

/-- JSON document `asdict(attempt.issue)` (memory.py line 62), with keys in
dataclass field order. -/
def encodeIssue (i : Issue) : Json :=
  .obj [("pod_name", .s i.pod_name), ("namespace", .s i.nspace),
        ("status", .s i.status), ("reason", .s i.reason),
        ("message", .s i.message), ("timestamp", .s i.timestamp),
        ("container_name", match i.container_name with
                           | some c => .s c
                           | none => .null)]

/-- Read an issue snapshot back from a persisted document, by the key
lookups the reading code performs; unknown extra keys are ignored. -/
def decodeIssue (j : Json) : Option Issue :=
  match jGet j "pod_name", jGet j "namespace", jGet j "status",
        jGet j "reason", jGet j "message", jGet j "timestamp",
        jGet j "container_name" with
  | some (.s pn), some (.s ns), some (.s st), some (.s re), some (.s ms),
    some (.s ts), some cn =>
    match cn with
    | .null => some ⟨pn, ns, st, re, ms, ts, none⟩
    | .s c => some ⟨pn, ns, st, re, ms, ts, some c⟩
    | _ => none
  | _, _, _, _, _, _, _ => none

/-- Attempt dict written by store_attempt (memory.py lines 61-68). -/
def encodeAttempt (a : AttemptRec) : Json :=
  .obj [("issue", encodeIssue a.issue), ("action", .s a.action),
        ("action_details", a.action_details), ("success", .b a.success),
        ("timestamp", .s a.timestamp), ("reasoning", .s a.reasoning)]

/-- Read one attempt record back from a persisted document. -/
def decodeAttempt (j : Json) : Option AttemptRec :=
  match jGet j "issue", jGet j "action", jGet j "action_details",
        jGet j "success", jGet j "timestamp", jGet j "reasoning" with
  | some ji, some (.s ac), some d, some (.b su), some (.s ts), some (.s rs) =>
    match decodeIssue ji with
    | some iss => some ⟨iss, ac, d, su, ts, rs⟩
    | none => none
  | _, _, _, _, _, _ => none

/-- Action entry dict appended by _update_patterns (memory.py lines 92-96). -/
def encodeEntry (e : ActionEntry) : Json :=
  .obj [("action", .s e.action), ("details", e.details),
        ("reasoning", .s e.reasoning)]

/-- Read one successful-action entry back. -/
def decodeEntry (j : Json) : Option ActionEntry :=
  match jGet j "action", jGet j "details", jGet j "reasoning" with
  | some (.s a), some d, some (.s r) => some ⟨a, d, r⟩
  | _, _, _ => none

/-- Read a successful-actions array back, element by element. -/
def decodeEntries : List Json → Option (List ActionEntry)
  | [] => some []
  | j :: rest =>
    match decodeEntry j, decodeEntries rest with
    | some e, some l => some (e :: l)
    | _, _ => none

/-- Pattern dict as persisted (memory.py lines 82-97). -/
def encodePattern (p : Pattern) : Json :=
  .obj [("successful_actions", .arr (p.successful_actions.map encodeEntry)),
        ("success_count", .i p.success_count),
        ("total_count", .i p.total_count)]

/-- Read one pattern aggregate back. -/
def decodePattern (j : Json) : Option Pattern :=
  match jGet j "successful_actions", jGet j "success_count",
        jGet j "total_count" with
  | some (.arr xs), some (.i sc), some (.i tc) =>
    match decodeEntries xs with
    | some l => some ⟨l, sc.toNat, tc.toNat⟩
    | none => none
  | _, _, _ => none

/-- Read the attempts array back, element by element. -/
def decodeAttempts : List Json → Option (List AttemptRec)
  | [] => some []
  | j :: rest =>
    match decodeAttempt j, decodeAttempts rest with
    | some a, some l => some (a :: l)
    | _, _ => none

/-- Read the patterns dict back, entry by entry. -/
def decodePatterns : List (String × Json) → Option (List (String × Pattern))
  | [] => some []
  | (k, j) :: rest =>
    match decodePattern j, decodePatterns rest with
    | some p, some l => some ((k, p) :: l)
    | _, _ => none

/-- Full document written by Memory._save_memory: exactly the in-memory
dict, serialised (the `json.dump`/`json.load` text round trip of the
Python stdlib is value-faithful, so persistence is modelled at the JSON
value level). -/
def encodeMemory (m : MemoryState) : Json :=
  .obj [("attempts", .arr (m.attempts.map encodeAttempt)),
        ("patterns", .obj (m.patterns.map (fun kp => (kp.1, encodePattern kp.2))))]

/-- Structured view of a loaded memory document, by the accesses the
reading code performs. -/
def decodeMemory (j : Json) : Option MemoryState :=
  match jGet j "attempts", jGet j "patterns" with
  | some (.arr xs), some (.obj kvs) =>
    match decodeAttempts xs, decodePatterns kvs with
    | some atts, some pats => some ⟨atts, pats⟩
    | _, _ => none
  | _, _ => none

/-- The RemediationAttempt that AgenticMonitor.run builds from one plan
step in its Learn phase (agentic_monitor.py lines 314-323): `none` models
the KeyError raised there when the step lacks `action`, `details` or
`reasoning` (action and reasoning must be strings, as run also calls
`.upper()` and slices the reasoning while printing the plan). -/
def attempt_of_step (issue : Issue) (success : Bool) (ts : String)
    (step : Json) : Option AttemptRec :=
  match jGet step "action", jGet step "details", jGet step "reasoning" with
  | some (.s a), some d, some (.s r) => some ⟨issue, a, d, success, ts, r⟩
  | _, _, _ => none

/-- Step-by-step conversion of a whole plan into attempt records. -/
def stepsToAttempts (issue : Issue) (success : Bool) (ts : String) :
    List Json → Option (List AttemptRec)
  | [] => some []
  | step :: rest =>
    match attempt_of_step issue success ts step,
          stepsToAttempts issue success ts rest with
    | some a, some l => some (a :: l)
    | _, _ => none

/-- Learn phase of AgenticMonitor.run (agentic_monitor.py lines 312-324):
after a plan execution, store one attempt per plan step — executed or not —
all carrying the plan-wide overall success flag.  `none` models the
KeyError raised on a step missing one of the read fields.  Wall-clock
timestamps are collapsed into the parameter `ts`. -/
def learn_phase (mem : MemoryState) (issue : Issue) (success : Bool)
    (ts : String) : List Json → Option MemoryState
  | [] => some mem
  | step :: rest =>
    match attempt_of_step issue success ts step with
    | some a => learn_phase (store_attempt mem a) issue success ts rest
    | none => none

/-- Invariant on one pattern aggregate: successes never exceed the total. -/
def patInv (p : Pattern) : Prop := p.success_count ≤ p.total_count

/-- Invariant on the whole pattern table. -/
def memInv (m : MemoryState) : Prop := ∀ kp ∈ m.patterns, patInv kp.2

instance (p : Pattern) : Decidable (patInv p) := Nat.decLe _ _

instance (m : MemoryState) : Decidable (memInv m) := List.decidableBAll _ _

/-- Pattern value after one successful bump, as a function of the previous
value under the key. -/
def bumpedOf : Option Pattern → ActionEntry → Pattern
  | some p, e => ⟨p.successful_actions ++ [e], p.success_count + 1,
                  p.total_count + 1⟩
  | none, e => ⟨[e], 1, 1⟩

/-- Failure of every reasoning-service path that ends in the safe default:
the call raised, no JSON array was decoded, the decoded array has a
non-dict entry, or filtering leaves no valid entry. -/
def llmFails : Except Unit (Option (List Json)) → Bool
  | .error _ => true
  | .ok none => true
  | .ok (some es) => !(es.all isObjJson) || (es.filter entryActionValid).isEmpty

/-- Concrete issue used by the executor and learning examples. -/
def issueC2 : Issue := ⟨"web-abc-def", "default", "Waiting", "CrashLoopBackOff", "", "t0", none⟩

/-- Details dict of the concrete restart step. -/
def detailsC2 : Json := .obj [("pod_name", .s "web-abc-def"), ("namespace", .s "default")]

/-- Concrete well-formed restart step. -/
def stepC2 : Json :=
  .obj [("action", .s "restart_pod"), ("details", detailsC2),
        ("reasoning", .s "restart"), ("confidence", .s "low")]

/-- One-step plan holding the concrete restart step. -/
def planC2 : List Json := [stepC2]

/-- Successful attempt record for the restart step, as the Learn phase
stores it after a successful execution of planC2. -/
def attemptC2 : AttemptRec := ⟨issueC2, "restart_pod", detailsC2, true, "t0", "restart"⟩

/-- Remediation-log history holding one successful run of the concrete
restart command. -/
def histC2 : List LogEntry :=
  [⟨"t0", "kubectl delete pod web-abc-def -n default", 0, "", ""⟩]

/-- Context with no diagnostic signals. -/
def ctxEmpty : Context := ⟨"", "", ""⟩

/-- Context whose pod description contains the misspelled image line. -/
def ctxTypo : Context := ⟨"", "Image: ngnix:1.2", ""⟩

/-- Context whose logs show an empty environment variable. -/
def ctxEnv : Context := ⟨"DB_HOST is:", "", ""⟩

/-- Concrete ImagePullBackOff issue. -/
def issueC3 : Issue := ⟨"web-abc-def", "default", "Waiting", "ImagePullBackOff", "", "t", none⟩

/-- Concrete issue whose reason triggers no heuristic. -/
def issueC4 : Issue := ⟨"web-abc-def", "default", "Waiting", "OOMKilled", "", "t", none⟩

/-- Stored solution with a valid action kind. -/
def solC4 : ActionEntry :=
  ⟨"increase_memory", .obj [("deployment_name", .s "web"), ("new_limit", .s "1Gi")], "worked"⟩

/-- Memory holding one learned pattern for issueC4's signature. -/
def memC4 : MemoryState := ⟨[], [("Waiting_OOMKilled", ⟨[solC4], 1, 1⟩)]⟩

/-- Stored solution whose action kind is outside the valid enumeration. -/
def solC4bad : ActionEntry := ⟨"scale_down", .null, "r"⟩

/-- Memory whose only pattern stores an invalid action kind. -/
def memC4bad : MemoryState := ⟨[], [("Waiting_OOMKilled", ⟨[solC4bad], 1, 1⟩)]⟩

/-- Reasoning-service entry with a valid action kind and nothing else. -/
def stepGoodC5 : Json := .obj [("action", .s "restart_pod")]

/-- Decoded reply array holding one valid dict entry and one non-dict
entry. -/
def esC5 : List Json := [stepGoodC5, .i 42]

/-- Second step of the two-step learning plan; never executed when the
first step succeeds. -/
def stepEnvC10 : Json :=
  .obj [("action", .s "update_env"),
        ("details", .obj [("env_vars", .obj [("APP_HOST", .s "localhost")])]),
        ("reasoning", .s "env"), ("confidence", .s "medium")]

/-- Two-step plan whose first step succeeds on execution. -/
def planC10 : List Json := [stepC2, stepEnvC10]

/-- Well-formed fix-image step whose apply will fail under toolsC6. -/
def stepFixC6 : Json :=
  .obj [("action", .s "fix_image_name"),
        ("details", .obj [("new_image", .s "nginx:1.2")]),
        ("reasoning", .s "r1"), ("confidence", .s "high")]

/-- Two-step plan: a failing fix-image step, then a succeeding restart. -/
def planC6 : List Json := [stepFixC6, stepC2]

/-- Control-plane oracle under which only restarts succeed. -/
def toolsC6 : ToolCall → Bool
  | .restart_pod _ _ => true
  | _ => false

theorem store_attempt_attempts (m : MemoryState) (a : AttemptRec) :
    (store_attempt m a).attempts = m.attempts ++ [a] := by
  unfold store_attempt update_patterns
  by_cases h : a.success <;> simp [h]

theorem store_attempt_patterns (m : MemoryState) (a : AttemptRec) :
    (store_attempt m a).patterns =
      if a.success then
        bumpPattern (patternKey a.issue.status a.issue.reason)
          (ActionEntry.mk a.action a.action_details a.reasoning) m.patterns
      else m.patterns := by
  unfold store_attempt update_patterns
  by_cases h : a.success <;> simp [h]

theorem lookup_mem_pat {k : String} {p : Pattern}
    {l : List (String × Pattern)} (h : l.lookup k = some p) : (k, p) ∈ l := by
  induction l with
  | nil => simp [List.lookup] at h
  | cons kp rest ih =>
    obtain ⟨k', p'⟩ := kp
    by_cases hk : k = k'
    · subst hk
      simp [List.lookup] at h
      subst h
      exact List.mem_cons_self _ _
    · have hk2 : (k == k') = false := beq_eq_false_iff_ne.mpr hk
      simp [List.lookup, hk2] at h
      exact List.mem_cons_of_mem _ (ih h)

theorem lookup_bumpPattern (key : String) (e : ActionEntry) :
    ∀ l : List (String × Pattern),
      (bumpPattern key e l).lookup key = some (bumpedOf (l.lookup key) e) := by
  intro l
  induction l with
  | nil => simp [bumpPattern, bumpedOf, List.lookup]
  | cons kp rest ih =>
    obtain ⟨k, p⟩ := kp
    by_cases hk : k = key
    · subst hk
      simp [bumpPattern, List.lookup, bumpedOf]
    · have hk2 : (k == key) = false := beq_eq_false_iff_ne.mpr hk
      have hk3 : (key == k) = false := beq_eq_false_iff_ne.mpr (Ne.symm hk)
      simp [bumpPattern, List.lookup, hk2, hk3, ih]

theorem mem_bumpPattern_mono (key : String) (e : ActionEntry) {k : String}
    {p : Pattern} :
    ∀ {l : List (String × Pattern)}, (k, p) ∈ l →
      ∃ p', (k, p') ∈ bumpPattern key e l ∧
        p.success_count ≤ p'.success_count ∧
        p.total_count ≤ p'.total_count := by
  intro l hmem
  induction l with
  | nil => simp at hmem
  | cons kp rest ih =>
    obtain ⟨k', p'⟩ := kp
    rcases List.mem_cons.mp hmem with hhd | htl
    · rw [Prod.mk.injEq] at hhd
      obtain ⟨hk, hp⟩ := hhd
      subst hk; subst hp
      by_cases hk1 : (k == key) = true
      · refine ⟨⟨p.successful_actions ++ [e], p.success_count + 1,
          p.total_count + 1⟩, ?_, Nat.le_succ _, Nat.le_succ _⟩
        simp [bumpPattern, hk1]
      · refine ⟨p, ?_, le_refl _, le_refl _⟩
        simp [Bool.not_eq_true] at hk1
        simp [bumpPattern, hk1]
    · by_cases hk1 : (k' == key) = true
      · exact ⟨p, by simp [bumpPattern, hk1, htl], le_refl _, le_refl _⟩
      · simp [Bool.not_eq_true] at hk1
        obtain ⟨p2, hp2, hs, ht⟩ := ih htl
        exact ⟨p2, by simp [bumpPattern, hk1]; right; exact hp2, hs, ht⟩

theorem bumpPattern_inv (key : String) (e : ActionEntry) :
    ∀ l : List (String × Pattern), (∀ kp ∈ l, patInv kp.2) →
      ∀ kp ∈ bumpPattern key e l, patInv kp.2 := by
  intro l
  induction l with
  | nil =>
    intro _ kp hkp
    simp [bumpPattern] at hkp
    subst hkp
    simp [patInv]
  | cons hd rest ih =>
    obtain ⟨k, p⟩ := hd
    intro hall kp hkp
    by_cases hk : (k == key) = true
    · simp [bumpPattern, hk] at hkp
      rcases hkp with h1 | h2
      · subst h1
        have := hall (k, p) (List.mem_cons_self _ _)
        simp [patInv] at this ⊢
        omega
      · exact hall kp (List.mem_cons_of_mem _ h2)
    · simp [Bool.not_eq_true] at hk
      simp [bumpPattern, hk] at hkp
      rcases hkp with h1 | h2
      · subst h1; exact hall (k, p) (List.mem_cons_self _ _)
      · exact ih (fun x hx => hall x (List.mem_cons_of_mem _ hx)) kp h2

theorem get_success_rate_some {m : MemoryState} {k : String} {q : Pattern}
    (hl : m.patterns.lookup k = some q) :
    get_success_rate m k =
      if q.total_count > 0 then (q.success_count : Rat) / (q.total_count : Rat)
      else 0 := by
  unfold get_success_rate
  rw [hl]

theorem get_success_rate_none {m : MemoryState} {k : String}
    (hl : m.patterns.lookup k = none) : get_success_rate m k = 0 := by
  unfold get_success_rate
  rw [hl]

/-- C8: Every Pattern Memory operation preserves the invariants — the only
mutator, store_attempt, keeps every pattern's success count at or below
its total count and never decreases either counter of an existing pattern;
under the invariant get_success_rate always lies in [0,1], returning 0
when the pattern is absent or its total count is zero (the guarded branch,
so no division by zero is performed); and store_attempt changes the
attempt log only by appending the new record. -/
theorem c8_memory_invariants (m : MemoryState) (a : AttemptRec) (k : String)
    (p : Pattern) (hinv : memInv m) :
    memInv (store_attempt m a) ∧
    ((k, p) ∈ m.patterns → ∃ p', (k, p') ∈ (store_attempt m a).patterns ∧
      p.success_count ≤ p'.success_count ∧
      p.total_count ≤ p'.total_count) ∧
    (0 ≤ get_success_rate m k ∧ get_success_rate m k ≤ 1) ∧
    (m.patterns.lookup k = none → get_success_rate m k = 0) ∧
    (∀ q, m.patterns.lookup k = some q → q.total_count = 0 →
      get_success_rate m k = 0) ∧
    (store_attempt m a).attempts = m.attempts ++ [a] := by
  refine ⟨?_, ?_, ?_, ?_, ?_, store_attempt_attempts m a⟩
  · intro kp hkp
    rw [store_attempt_patterns] at hkp
    by_cases hs : a.success
    · rw [if_pos hs] at hkp
      exact bumpPattern_inv _ _ m.patterns hinv kp hkp
    · rw [if_neg hs] at hkp
      exact hinv kp hkp
  · intro hmem
    rw [store_attempt_patterns]
    by_cases hs : a.success
    · rw [if_pos hs]
      exact mem_bumpPattern_mono _ _ hmem
    · rw [if_neg hs]
      exact ⟨p, hmem, le_refl _, le_refl _⟩
  · cases hl : m.patterns.lookup k with
    | none => simp [get_success_rate_none hl]
    | some q =>
      have hq : patInv q := hinv (k, q) (lookup_mem_pat hl)
      rw [get_success_rate_some hl]
      by_cases ht : q.total_count > 0
      · rw [if_pos ht]
        constructor
        · positivity
        · rw [div_le_one (by exact_mod_cast ht)]
          exact_mod_cast hq
      · rw [if_neg ht]
        simp
  · intro hl
    exact get_success_rate_none hl
  · intro q hl ht
    rw [get_success_rate_some hl, if_neg (by omega)]

/-- Witness for C8 at a concrete memory holding one learned pattern and a
concrete successful attempt. -/
theorem c8_witness :
    memInv memC4 ∧
    (memInv (store_attempt memC4 attemptC2) ∧
     ((("Waiting_OOMKilled", Pattern.mk [solC4] 1 1) ∈ memC4.patterns →
       ∃ p', ("Waiting_OOMKilled", p') ∈ (store_attempt memC4 attemptC2).patterns ∧
         (Pattern.mk [solC4] 1 1).success_count ≤ p'.success_count ∧
         (Pattern.mk [solC4] 1 1).total_count ≤ p'.total_count)) ∧
     (0 ≤ get_success_rate memC4 "Waiting_OOMKilled" ∧
      get_success_rate memC4 "Waiting_OOMKilled" ≤ 1) ∧
     (memC4.patterns.lookup "Waiting_OOMKilled" = none →
      get_success_rate memC4 "Waiting_OOMKilled" = 0) ∧
     (∀ q, memC4.patterns.lookup "Waiting_OOMKilled" = some q →
       q.total_count = 0 → get_success_rate memC4 "Waiting_OOMKilled" = 0) ∧
     (store_attempt memC4 attemptC2).attempts = memC4.attempts ++ [attemptC2]) :=
  ⟨by decide,
   c8_memory_invariants memC4 attemptC2 "Waiting_OOMKilled"
     (Pattern.mk [solC4] 1 1) (by decide)⟩

theorem decodeIssue_encodeIssue (i : Issue) :
    decodeIssue (encodeIssue i) = some i := by
  obtain ⟨pn, ns, st, re, ms, ts, cn⟩ := i
  cases cn <;> rfl

theorem decodeAttempt_encodeAttempt (a : AttemptRec) :
    decodeAttempt (encodeAttempt a) = some a := by
  obtain ⟨⟨pn, ns, st, re, ms, ts, cn⟩, ac, d, su, ats, rs⟩ := a
  cases cn <;> rfl

theorem decodeEntry_encodeEntry (e : ActionEntry) :
    decodeEntry (encodeEntry e) = some e := rfl

theorem decodeEntries_map (l : List ActionEntry) :
    decodeEntries (l.map encodeEntry) = some l := by
  induction l with
  | nil => rfl
  | cons e rest ih => simp [decodeEntries, decodeEntry_encodeEntry, ih]

theorem decodePattern_encodePattern (p : Pattern) :
    decodePattern (encodePattern p) = some p := by
  obtain ⟨acts, sc, tc⟩ := p
  unfold encodePattern decodePattern
  simp [jGet, List.lookup, decodeEntries_map]

theorem decodeAttempts_map (l : List AttemptRec) :
    decodeAttempts (l.map encodeAttempt) = some l := by
  induction l with
  | nil => rfl
  | cons a rest ih => simp [decodeAttempts, decodeAttempt_encodeAttempt, ih]

theorem decodePatterns_map (l : List (String × Pattern)) :
    decodePatterns (l.map (fun kp => (kp.1, encodePattern kp.2))) = some l := by
  induction l with
  | nil => rfl
  | cons kp rest ih =>
    obtain ⟨k, p⟩ := kp
    simp [decodePatterns, decodePattern_encodePattern, ih]

theorem decodeMemory_encodeMemory (m : MemoryState) :
    decodeMemory (encodeMemory m) = some m := by
  obtain ⟨atts, pats⟩ := m
  unfold encodeMemory decodeMemory
  simp [jGet, List.lookup, decodeAttempts_map, decodePatterns_map]

/-- C7: store_attempt followed by reloading the persisted document yields
a state with identical aggregate statistics (total, successful, rate,
distinct patterns) and an identical most-recent successful Step per
signature; in fact the decoded state equals the stored one.  The
`json.dump`/`json.load` text round trip of the Python stdlib is
value-faithful, so persistence is modelled at the JSON value level. -/
theorem c7_memory_roundtrip (m : MemoryState) (a : AttemptRec) :
    decodeMemory (encodeMemory (store_attempt m a)) = some (store_attempt m a) ∧
    (decodeMemory (encodeMemory (store_attempt m a))).map get_statistics =
      some (get_statistics (store_attempt m a)) ∧
    ∀ issue : Issue,
      (decodeMemory (encodeMemory (store_attempt m a))).map
          (fun mm => recall_similar mm issue) =
        some (recall_similar (store_attempt m a) issue) := by
  refine ⟨decodeMemory_encodeMemory _, ?_, fun issue => ?_⟩ <;>
    · rw [decodeMemory_encodeMemory]
      rfl

/-- C9 amended: load returns the empty memory document when the file is
missing or its content is not syntactically valid JSON (the caught
JSONDecodeError); any content that does parse as JSON is returned verbatim
as the memory state, whatever its shape, and _load_memory itself raises
nothing in either case. -/
theorem c9_load_fresh :
    load_memory none = emptyMemoryJson ∧
    load_memory (some (Except.error ())) = emptyMemoryJson ∧
    ∀ j : Json, load_memory (some (Except.ok j)) = j :=
  ⟨rfl, rfl, fun _ => rfl⟩

/-- C9 counterexample: the file content `[]` is valid JSON but not a
memory document; _load_memory returns the array itself, not the empty
state, so schema-malformed content is not discarded. -/
theorem c9_counterexample :
    load_memory (some (Except.ok (Json.arr []))) ≠ emptyMemoryJson ∧
    decodeMemory (Json.arr []) = none := by
  constructor
  · intro h
    exact Json.noConfusion h
  · rfl

theorem llm_tier_ne_nil (issue : Issue)
    (llm : Except Unit (Option (List Json))) : llm_tier issue llm ≠ [] := by
  unfold llm_tier parse_plan
  match llm with
  | .error _ => simp
  | .ok none => simp
  | .ok (some es) =>
    by_cases hobj : es.all isObjJson
    · simp only [hobj, if_true]
      by_cases hemp : (es.filter entryActionValid).isEmpty
      · simp [hemp]
      · simp only [hemp, if_false]
        simpa [List.isEmpty_iff] using hemp
    · simp [hobj]

/-- C1: with no heuristic match and no usable memory pattern, every
reasoning-service failure mode — the call raising, no decodable JSON
array, a non-dict entry aborting the filter, or zero valid entries
surviving it — makes create_plan return a single low-confidence
restart_pod step whose details name the failing pod and namespace (one of
the two textually distinct fallback steps); and create_plan never returns
an empty plan for any input whatsoever. -/
theorem c1_safe_default (issue : Issue) (ctx : Context) (mem : MemoryState)
    (llm : Except Unit (Option (List Json)))
    (hheur : heuristic_step issue ctx = none)
    (hmem : memory_hit mem issue = none)
    (hllm : llmFails llm = true) :
    (create_plan issue ctx mem llm = [error_fallback issue] ∨
     create_plan issue ctx mem llm = [parse_fallback issue]) ∧
    ∀ (i : Issue) (c : Context) (m : MemoryState)
      (l : Except Unit (Option (List Json))), create_plan i c m l ≠ [] := by
  constructor
  · unfold create_plan
    rw [hheur, hmem]
    unfold llm_tier parse_plan
    match llm with
    | .error _ => exact .inl rfl
    | .ok none => exact .inr rfl
    | .ok (some es) =>
      unfold llmFails at hllm
      by_cases hobj : es.all isObjJson
      · simp only [hobj, Bool.not_true, Bool.false_or] at hllm
        refine .inr ?_
        simp [hobj, hllm]
      · simp only [Bool.not_eq_true] at hobj
        refine .inl ?_
        simp [hobj]
  · intro i c m l
    unfold create_plan
    cases hh : heuristic_step i c with
    | some st => simp
    | none =>
      cases hm : memory_hit m i with
      | some st => simp
      | none => exact llm_tier_ne_nil i l

/-- Witness for C1 at a concrete issue with a non-heuristic reason, empty
memory and a failed reasoning-service call. -/
theorem c1_witness :
    llmFails (Except.error ()) = true ∧
    ((create_plan issueC4 ctxEmpty emptyMemory (.error ()) =
        [error_fallback issueC4] ∨
      create_plan issueC4 ctxEmpty emptyMemory (.error ()) =
        [parse_fallback issueC4]) ∧
     ∀ (i : Issue) (c : Context) (m : MemoryState)
       (l : Except Unit (Option (List Json))), create_plan i c m l ≠ []) :=
  ⟨rfl, c1_safe_default issueC4 ctxEmpty emptyMemory (.error ()) rfl rfl rfl⟩

/-- C3: when a reason-specific heuristic fires — ImagePullBackOff or
ErrImagePull with a known typo detected in the pod description, or
CrashLoopBackOff with missing-environment-variable signals in the logs —
create_plan returns exactly the one high-confidence step built by that
detector, for every memory state and reasoning-service outcome (neither is
consulted); in particular, with the pod description `Image: ngnix:1.2` an
ImagePullBackOff issue yields the single fix_image_name step whose
new_image is `nginx:1.2`. -/
theorem c3_heuristic_detectors (issue : Issue) (ctx : Context)
    (tf : ImageFix) (env : List (String × String)) :
    ((issue.reason = "ImagePullBackOff" ∨ issue.reason = "ErrImagePull") →
      detect_image_typo ctx = some tf →
      ∀ (mem : MemoryState) (llm : Except Unit (Option (List Json))),
        create_plan issue ctx mem llm = [fix_image_step issue tf]) ∧
    (issue.reason = "CrashLoopBackOff" →
      detect_missing_env_vars ctx = some env →
      ∀ (mem : MemoryState) (llm : Except Unit (Option (List Json))),
        create_plan issue ctx mem llm = [update_env_step issue env]) ∧
    (issue.reason = "ImagePullBackOff" →
      ∀ (mem : MemoryState) (llm : Except Unit (Option (List Json))),
        create_plan issue ctxTypo mem llm =
          [fix_image_step issue ⟨"ngnix:1.2", "nginx:1.2"⟩]) := by
  have h1 : ∀ (ctx2 : Context) (tf2 : ImageFix),
      (issue.reason = "ImagePullBackOff" ∨ issue.reason = "ErrImagePull") →
      detect_image_typo ctx2 = some tf2 →
      ∀ (mem : MemoryState) (llm : Except Unit (Option (List Json))),
        create_plan issue ctx2 mem llm = [fix_image_step issue tf2] := by
    intro ctx2 tf2 hr hd mem llm
    have hcond : (issue.reason == "ImagePullBackOff" ||
        issue.reason == "ErrImagePull") = true := by
      rcases hr with h | h <;> simp [h]
    simp only [create_plan, heuristic_step, hcond, if_true, hd]
  refine ⟨h1 ctx tf, ?_, fun hr => h1 ctxTypo ⟨"ngnix:1.2", "nginx:1.2"⟩
    (.inl hr) (by rfl)⟩
  intro hr hd mem llm
  have hc1 : (issue.reason == "ImagePullBackOff" ||
      issue.reason == "ErrImagePull") = false := by simp [hr]
  have hc2 : (issue.reason == "CrashLoopBackOff") = true := by simp [hr]
  simp [create_plan, heuristic_step, hc1, hc2, hd]

/-- Witness for C3: both detectors fire on concrete contexts and the plans
are the corresponding single heuristic steps. -/
theorem c3_witness :
    detect_image_typo ctxTypo = some ⟨"ngnix:1.2", "nginx:1.2"⟩ ∧
    create_plan issueC3 ctxTypo emptyMemory (.error ()) =
      [fix_image_step issueC3 ⟨"ngnix:1.2", "nginx:1.2"⟩] ∧
    detect_missing_env_vars ctxEnv = some [("DB_HOST", "localhost")] ∧
    create_plan issueC2 ctxEnv emptyMemory (.error ()) =
      [update_env_step issueC2 [("DB_HOST", "localhost")]] :=
  ⟨rfl,
   (c3_heuristic_detectors issueC3 ctxTypo ⟨"ngnix:1.2", "nginx:1.2"⟩ []).1
     (.inl rfl) rfl emptyMemory (.error ()),
   rfl,
   (c3_heuristic_detectors issueC2 ctxEnv ⟨"", ""⟩
     [("DB_HOST", "localhost")]).2.1 rfl rfl emptyMemory (.error ())⟩

/-- C4: with no heuristic match, a recalled pattern solution whose action
kind is still in the valid enumeration is replayed as the single (hence
first) plan step carrying the stored action and details, for every
reasoning-service outcome; a recalled solution with an action outside the
enumeration is ignored and planning falls through to the
reasoning-service tier. -/
theorem c4_memory_recall (issue : Issue) (ctx : Context) (mem : MemoryState)
    (sol : ActionEntry)
    (hheur : heuristic_step issue ctx = none)
    (hrec : recall_similar mem issue = some sol) :
    (validActions.contains sol.action = true →
      ∀ llm : Except Unit (Option (List Json)),
        create_plan issue ctx mem llm = [learned_step sol]) ∧
    (validActions.contains sol.action = false →
      ∀ llm : Except Unit (Option (List Json)),
        create_plan issue ctx mem llm = llm_tier issue llm) := by
  constructor <;> intro hv llm
  · have hv2 : sol.action ∈ validActions := by simpa using hv
    simp [create_plan, hheur, memory_hit, hrec, hv2]
  · have hv2 : sol.action ∉ validActions := by simpa using hv
    simp [create_plan, hheur, memory_hit, hrec, hv2]

/-- Witness for C4: a valid learned action is replayed; an invalid one
falls through to the reasoning-service tier. -/
theorem c4_witness :
    recall_similar memC4 issueC4 = some solC4 ∧
    create_plan issueC4 ctxEmpty memC4 (.error ()) = [learned_step solC4] ∧
    recall_similar memC4bad issueC4 = some solC4bad ∧
    create_plan issueC4 ctxEmpty memC4bad (.error ()) =
      llm_tier issueC4 (.error ()) :=
  ⟨rfl,
   (c4_memory_recall issueC4 ctxEmpty memC4 solC4 rfl rfl).1 rfl (.error ()),
   rfl,
   (c4_memory_recall issueC4 ctxEmpty memC4bad solC4bad rfl rfl).2 rfl
     (.error ())⟩

/-- C5 amended: when the decoded reply array consists of dict entries only
and at least one entry carries a valid action kind, create_plan returns
exactly the subsequence of valid-action entries in their original order
(the filter); a non-dict entry anywhere in the array instead aborts the
parse with an AttributeError and the safe default is returned, even if
valid entries are present (see the counterexample). -/
theorem c5_valid_filter (issue : Issue) (ctx : Context) (mem : MemoryState)
    (es : List Json)
    (hheur : heuristic_step issue ctx = none)
    (hmem : memory_hit mem issue = none)
    (hobj : es.all isObjJson = true)
    (hne : (es.filter entryActionValid).isEmpty = false) :
    create_plan issue ctx mem (.ok (some es)) = es.filter entryActionValid := by
  simp [create_plan, hheur, hmem, llm_tier, parse_plan, hobj, hne]

/-- Witness for C5's amended form, on the spec's own scenario: the reply
`[{"action":"bogus"},{"action":"restart_pod","details":{}}]` planned for a
fresh CrashLoopBackOff issue keeps exactly the valid entry. -/
theorem c5_witness :
    ([Json.obj [("action", Json.s "bogus")],
      Json.obj [("action", Json.s "restart_pod"), ("details", Json.obj [])]].all
        isObjJson) = true ∧
    create_plan issueC2 ctxEmpty emptyMemory
      (.ok (some [Json.obj [("action", Json.s "bogus")],
        Json.obj [("action", Json.s "restart_pod"), ("details", Json.obj [])]])) =
      [Json.obj [("action", Json.s "restart_pod"), ("details", Json.obj [])]] :=
  ⟨rfl,
   c5_valid_filter issueC2 ctxEmpty emptyMemory
     [Json.obj [("action", Json.s "bogus")],
      Json.obj [("action", Json.s "restart_pod"), ("details", Json.obj [])]]
     rfl rfl rfl rfl⟩

/-- C5 counterexample: the decoded array [stepGoodC5, 42] contains an
entry with a valid action kind, yet create_plan returns the safe-default
fallback — not the valid subsequence — because the non-dict entry 42
raises inside the filter loop. -/
theorem c5_counterexample :
    create_plan issueC2 ctxEmpty emptyMemory (.ok (some esC5)) =
      [error_fallback issueC2] ∧
    esC5.filter entryActionValid = [stepGoodC5] ∧
    create_plan issueC2 ctxEmpty emptyMemory (.ok (some esC5)) ≠
      esC5.filter entryActionValid := by
  refine ⟨rfl, rfl, ?_⟩
  intro h
  have h2 := congrArg (fun l => (jGet (l.headD Json.null) "details").isSome) h
  exact absurd h2 (by decide)

theorem exec_step_wf_shape (issue : Issue) (ns : String) (step : Json)
    (h : stepWF step = true) : ∃ c, exec_step issue ns step = .ok c := by
  unfold stepWF at h
  rcases hA : jGet step "action" with _ | ja <;> rw [hA] at h
  · simp at h
  rcases hD : jGet step "details" with _ | jd <;> rw [hD] at h
  · cases ja <;> simp at h
  cases ja <;> simp at h
  case s act =>
    cases jd <;> simp at h
    case obj kvs =>
      unfold exec_step
      rw [hA, hD]
      by_cases h1 : act == "restart_pod"
      · simp [h1]
      · by_cases h2 : act == "update_env"
        · simp [h1, h2]
        · by_cases h3 : act == "increase_memory"
          · simp [h1, h2, h3]
          · by_cases h4 : act == "fix_image_name"
            · by_cases h5 :
                jTruthy (jGetD (Json.obj kvs) "new_image" Json.null) = true <;>
                simp [h1, h2, h3, h4, h5]
            · simp [h1, h2, h3, h4]

theorem exec_step_wf_ok (issue : Issue) (ns : String) (step : Json)
    (h : stepWF step = true) :
    exec_step issue ns step = .ok (step_call issue ns step) := by
  obtain ⟨c, hc⟩ := exec_step_wf_shape issue ns step h
  rw [hc]
  unfold step_call
  rw [hc]

/-- C6: on a plan of well-formed Steps (dict with string action kind and
details map), execute_plan never aborts; it walks the steps in declared
order, returns true with the trace ending at the first step whose apply
succeeds (no later step is attempted), and returns false — having issued
every step's call — exactly when every step fails.  Control-plane
failures are just failed steps: iteration continues past them. -/
theorem c6_execute_first_success (tools : ToolCall → Bool) (issue : Issue)
    (ns : String) (plan : List Json)
    (hwf : ∀ s ∈ plan, stepWF s = true) :
    execute_plan tools issue ns plan =
      .ok (plan.any (step_ok tools issue ns),
        (plan.takeWhile (fun s => !step_ok tools issue ns s)).filterMap
            (step_call issue ns) ++
          ((plan.dropWhile (fun s => !step_ok tools issue ns s)).head?.bind
            (step_call issue ns)).toList) := by
  induction plan with
  | nil => rfl
  | cons s rest ih =>
    have hs := hwf s (List.mem_cons_self _ _)
    have hrest : ∀ x ∈ rest, stepWF x = true :=
      fun x hx => hwf x (List.mem_cons_of_mem _ hx)
    have hexec := exec_step_wf_ok issue ns s hs
    simp only [execute_plan]
    rw [hexec]
    cases hcall : step_call issue ns s with
    | none =>
      have hok : step_ok tools issue ns s = false := by simp [step_ok, hcall]
      simp [ih hrest, hok, hcall]
    | some c =>
      by_cases htc : tools c = true
      · have hok : step_ok tools issue ns s = true := by
          simp [step_ok, hcall, htc]
        simp [htc, hok, hcall]
      · have htc2 : tools c = false := by simpa using htc
        have hok : step_ok tools issue ns s = false := by
          simp [step_ok, hcall, htc2]
        simp [ih hrest, htc2, hok, hcall]

/-- Witness for C6: on a two-step plan whose first call fails and whose
second succeeds, execute_plan issues both calls in order and reports
success. -/
theorem c6_witness :
    (∀ s ∈ planC6, stepWF s = true) ∧
    execute_plan toolsC6 issueC2 "default" planC6 =
      .ok (true, [ToolCall.fix_image_name (Json.s "web") "default"
                    (Json.s "nginx:1.2"),
                  ToolCall.restart_pod "web-abc-def" "default"]) :=
  ⟨by decide,
   (c6_execute_first_success toolsC6 issueC2 "default" planC6 (by decide)).trans
     (by rfl)⟩

theorem attempt_of_step_fields {issue : Issue} {success : Bool} {ts : String}
    {step : Json} {a : AttemptRec}
    (h : attempt_of_step issue success ts step = some a) :
    a.success = success ∧ a.issue = issue := by
  unfold attempt_of_step at h
  split at h
  · injection h with h2
    subst h2
    exact ⟨rfl, rfl⟩
  · exact absurd h (by simp)

theorem recall_store_success (m : MemoryState) (a : AttemptRec) (issue : Issue)
    (hsu : a.success = true) (hi : a.issue = issue) :
    recall_similar (store_attempt m a) issue =
      some ⟨a.action, a.action_details, a.reasoning⟩ := by
  subst hi
  unfold recall_similar
  rw [store_attempt_patterns]
  simp only [hsu, if_true]
  rw [lookup_bumpPattern]
  cases hold : m.patterns.lookup (patternKey a.issue.status a.issue.reason) with
  | none => simp [bumpedOf]
  | some p => simp [bumpedOf, List.getLast?_concat]

/-- C10: the Learn phase stores exactly one attempt per plan step — in
plan order, including steps never executed because an earlier step already
succeeded — each carrying the plan-wide overall success flag for this
issue; and after a successful plan the recallable learned pattern for the
issue's signature is the attempt built from the plan's last step, whether
or not that step ever ran. -/
theorem c10_learn_stores_all (issue : Issue) (success : Bool) (ts : String) :
    ∀ (plan : List Json) (mem m' : MemoryState),
      learn_phase mem issue success ts plan = some m' →
      (∃ l, stepsToAttempts issue success ts plan = some l ∧
        m'.attempts = mem.attempts ++ l ∧ l.length = plan.length ∧
        ∀ a ∈ l, a.success = success ∧ a.issue = issue) ∧
      (success = true → plan ≠ [] →
        recall_similar m' issue =
          (plan.getLast?.bind (attempt_of_step issue success ts)).map
            (fun a => ActionEntry.mk a.action a.action_details a.reasoning)) := by
  intro plan
  induction plan with
  | nil =>
    intro mem m' h
    simp [learn_phase] at h
    subst h
    exact ⟨⟨[], rfl, by simp, rfl, by simp⟩, fun _ hne => absurd rfl hne⟩
  | cons step rest ih =>
    intro mem m' h
    rw [learn_phase] at h
    cases hconv : attempt_of_step issue success ts step with
    | none => rw [hconv] at h; exact absurd h (by simp)
    | some a =>
      rw [hconv] at h
      have hsa := attempt_of_step_fields hconv
      obtain ⟨⟨l, hl1, hl2, hl3, hl4⟩, hrec⟩ := ih (store_attempt mem a) m' h
      constructor
      · refine ⟨a :: l, ?_, ?_, by simp [hl3], ?_⟩
        · simp [stepsToAttempts, hconv, hl1]
        · rw [hl2, store_attempt_attempts]
          simp
        · intro x hx
          rcases List.mem_cons.mp hx with h1 | h2
          · subst h1
            exact hsa
          · exact hl4 x h2
      · intro hsu hne
        cases rest with
        | nil =>
          simp [learn_phase] at h
          subst h
          have : a.success = true := by rw [hsa.1, hsu]
          rw [recall_store_success mem a issue this hsa.2]
          simp [hconv]
        | cons s2 r2 =>
          rw [hrec hsu (by simp)]
          simp [List.getLast?_cons_cons]

/-- Witness for C10: executing the two-step plan planC10 succeeds on its
first step (only the restart call is issued), yet the Learn phase stores
both steps as successful attempts and the second, never-executed step
becomes the recallable learned pattern. -/
theorem c10_witness :
    learn_phase emptyMemory issueC2 true "t1" planC10 =
      some ⟨[⟨issueC2, "restart_pod", detailsC2, true, "t1", "restart"⟩,
             ⟨issueC2, "update_env",
              Json.obj [("env_vars", Json.obj [("APP_HOST", Json.s "localhost")])],
              true, "t1", "env"⟩],
            [("Waiting_CrashLoopBackOff",
              ⟨[⟨"restart_pod", detailsC2, "restart"⟩,
                ⟨"update_env",
                 Json.obj [("env_vars", Json.obj [("APP_HOST", Json.s "localhost")])],
                 "env"⟩], 2, 2⟩)]⟩ ∧
    execute_plan (fun _ => true) issueC2 "default" planC10 =
      .ok (true, [ToolCall.restart_pod "web-abc-def" "default"]) ∧
    ((∃ l, stepsToAttempts issueC2 true "t1" planC10 = some l ∧
       (MemoryState.mk
         [⟨issueC2, "restart_pod", detailsC2, true, "t1", "restart"⟩,
          ⟨issueC2, "update_env",
           Json.obj [("env_vars", Json.obj [("APP_HOST", Json.s "localhost")])],
           true, "t1", "env"⟩]
         [("Waiting_CrashLoopBackOff",
           ⟨[⟨"restart_pod", detailsC2, "restart"⟩,
             ⟨"update_env",
              Json.obj [("env_vars", Json.obj [("APP_HOST", Json.s "localhost")])],
              "env"⟩], 2, 2⟩)]).attempts = emptyMemory.attempts ++ l ∧
       l.length = planC10.length ∧
       ∀ a ∈ l, a.success = true ∧ a.issue = issueC2) ∧
     (true = true → planC10 ≠ [] →
       recall_similar
         (MemoryState.mk
           [⟨issueC2, "restart_pod", detailsC2, true, "t1", "restart"⟩,
            ⟨issueC2, "update_env",
             Json.obj [("env_vars", Json.obj [("APP_HOST", Json.s "localhost")])],
             true, "t1", "env"⟩]
           [("Waiting_CrashLoopBackOff",
             ⟨[⟨"restart_pod", detailsC2, "restart"⟩,
               ⟨"update_env",
                Json.obj [("env_vars", Json.obj [("APP_HOST", Json.s "localhost")])],
                "env"⟩], 2, 2⟩)]) issueC2 =
         (planC10.getLast?.bind (attempt_of_step issueC2 true "t1")).map
           (fun a => ActionEntry.mk a.action a.action_details a.reasoning))) :=
  ⟨rfl, rfl,
   c10_learn_stores_all issueC2 true "t1" planC10 emptyMemory _ rfl⟩

/-- C2 amended: the skip-if-already-successful idempotency guard lives
only in the standalone remediation flow — remediate_pod applies nothing
when the exact command string's most recent matching remediation.log
entry recorded returncode 0, in both its CrashLoopBackOff and OOMKilled
branches — while the agentic Executor performs no such check: execute_plan
consults no attempt log at all (it takes none), and re-issues the restart
call unconditionally on every execution of the plan. -/
theorem c2_guard_located (pod ns diagnosis : String) (history : List LogEntry)
    (cm rm : String) (dry_run confirm : Bool) :
    (strHas diagnosis "OOMKilled" = false →
      strHas diagnosis "CrashLoopBackOff" = true →
      was_remediation_successful (restart_cmd_str pod ns) history = true →
      remediate_pod pod ns diagnosis history (some cm) (some rm)
        dry_run confirm = []) ∧
    (strHas diagnosis "OOMKilled" = true →
      was_remediation_successful
        (joinWith " " (generate_patch_memory_cmd pod ns rm)) history = true →
      remediate_pod pod ns diagnosis history (some cm) (some rm)
        dry_run confirm = []) ∧
    execute_plan (fun _ => true) issueC2 "default" planC2 =
      .ok (true, [ToolCall.restart_pod "web-abc-def" "default"]) := by
  refine ⟨?_, ?_, rfl⟩
  · intro h1 h2 h3
    unfold remediate_pod
    simp [h1, h2, h3]
  · intro h1 h3
    unfold remediate_pod
    simp [h1, h3]

/-- Witness for C2's amended form: a CrashLoopBackOff diagnosis whose
restart command is already logged as successful is skipped. -/
theorem c2_witness :
    strHas "Pod is in CrashLoopBackOff" "OOMKilled" = false ∧
    strHas "Pod is in CrashLoopBackOff" "CrashLoopBackOff" = true ∧
    was_remediation_successful (restart_cmd_str "web-abc-def" "default")
      histC2 = true ∧
    remediate_pod "web-abc-def" "default" "Pod is in CrashLoopBackOff" histC2
      (some "200Mi") (some "300Mi") false false = [] :=
  ⟨rfl, rfl, rfl,
   (c2_guard_located "web-abc-def" "default" "Pod is in CrashLoopBackOff"
      histC2 "200Mi" "300Mi" false false).1 rfl rfl rfl⟩

/-- C2 counterexample: the agentic Memory attempt log already records a
success for the concrete restart command, yet executing the same one-step
plan again still issues the restart call to the control-plane client —
execute_plan performs no idempotency check, so two executions of the same
successful mutating command make two invocations, not at most one. -/
theorem c2_counterexample :
    (store_attempt emptyMemory attemptC2).attempts.any
      (fun a => a.success && (a.action == "restart_pod")) = true ∧
    execute_plan (fun _ => true) issueC2 "default" planC2 =
      .ok (true, [ToolCall.restart_pod "web-abc-def" "default"]) :=
  ⟨rfl, rfl⟩
